import Mathlib

/-!
Verification development for the visual memory engine of the
`ecstatic-epiphany` installation (`src/visual_memory.h`).

The engine is shallowly embedded here:

* machine `double` arithmetic is modelled by exact rationals (`ℚ`) wherever
  the code stays within finite values; the one place where IEEE-754
  non-finite values matter (the debug snapshot's unguarded `1.0 / cellMax`)
  is modelled by an explicit IEEE-style value domain `FVal` carrying
  infinities and NaN;
* the mapped cell grid, the recall accumulator and the recall buffer are
  modelled as total functions `ℕ → _` (idealized memory: a store indexed by
  the written index).  In the C++ code `recallAccumulator` is a
  `std::vector` of length `denseSize`, so a write at an index `≥ denseSize`
  is out of bounds; in-boundedness of every written index is settled
  separately, as its own claim;
* the learning thread's unbounded loop is modelled one sweep at a time: a
  sweep is a pure function from the pre-sweep state and the per-slot inputs
  (motion, luminance, PRNG draw, delayed frame) to the post-sweep state.
-/

namespace VisualMemory

/-- One learning cell: fast and slow correlation estimates
(`struct Cell { memory_t shortTerm; memory_t longTerm; }`). -/
structure Cell where
  shortTerm : ℚ
  longTerm : ℚ
  deriving DecidableEq, Repr

/-- An RGB color as produced by the effect frame (`Vec3`). -/
structure Vec3 where
  r : ℚ
  g : ℚ
  b : ℚ
  deriving DecidableEq, Repr

/-- `static const memory_t kMotionThreshold = 1e2`. -/
def kMotionThreshold : ℚ := 100

/-- `static const memory_t kShortTermPermeability = 1e-1`. -/
def kShortTermPermeability : ℚ := 1 / 10

/-- `static const memory_t kLongTermPermeability = 1e-4`. -/
def kLongTermPermeability : ℚ := 1 / 10000

/-- `VisualMemory::reinforcementFunction(int luminance, Vec3 led)`:
clamps each LED channel to ≤ 1, squares, and scales by the squared
luminance normalized by `255² = 65025`. -/
def reinforcementFunction (luminance : ℕ) (led : Vec3) : ℚ :=
  let r := min 1 led.r
  let g := min 1 led.g
  let b := min 1 led.b
  let lumaSq : ℚ := ((luminance : ℚ) * (luminance : ℚ)) / 65025
  let pixSq : ℚ := (r * r + g * g + b * b) / 3
  lumaSq * pixSq

/-- The learning gate for one slot
(`float r = prng.uniform(); r *= r; bool isLearning = motion / kMotionThreshold >= r;`).
`u` is the uniform draw in `[0,1)`. -/
def isLearning (motion u : ℚ) : Bool :=
  decide (motion / kMotionThreshold ≥ u * u)

/-- The short-term update for one cell access
(`state.shortTerm = (state.shortTerm - state.shortTerm * kShortTermPermeability) + reinforcement`). -/
def shortTermStep (reinforcement s : ℚ) : ℚ :=
  (s - s * kShortTermPermeability) + reinforcement

/-- The long-term update for one cell access, applied after the short-term
update (`double r = state.shortTerm - state.longTerm;
state.longTerm += (r * r * r) * kLongTermPermeability`).
`s` is the already-updated short-term value. -/
def longTermStep (s longTerm : ℚ) : ℚ :=
  longTerm + ((s - longTerm) * (s - longTerm) * (s - longTerm)) * kLongTermPermeability

/-- The full cell update performed for one (slot, dense pixel) access
(`visual_memory.h` lines 255–263). -/
def cellUpdate (luma : ℕ) (pixel : Vec3) (state : Cell) : Cell :=
  let reinforcement := reinforcementFunction luma pixel
  let shortTerm := shortTermStep reinforcement state.shortTerm
  let longTerm := longTermStep shortTerm state.longTerm
  ⟨shortTerm, longTerm⟩

/-- The dense → sparse pixel index, built in `VisualMemory::start` by
scanning the pixel list in order and keeping the indices of mapped pixels. -/
def buildDenseToSparse (isMapped : List Bool) : List ℕ :=
  (List.range isMapped.length).filter (fun i => isMapped.getD i false)

/-- The state mutated by one sweep of `VisualMemory::learnWorker`.
`cells` is the mapped memory, addressed as `slot * denseSize + denseIndex`;
the vectors are modelled as total functions (see the file header). -/
structure SweepState where
  cells : ℕ → Cell
  recallAccumulator : ℕ → ℚ
  recallTotal : ℚ
  learnFlags : ℕ → Bool
  recallBuffer : ℕ → ℚ

/-- Per-slot inputs read by the worker during a sweep: the Sobel motion
value, the luminance sample, the PRNG draw `u`, and the latency-delayed
effect frame (`none` when `tap->get` has no frame yet). -/
structure SlotInput where
  motion : ℚ
  luma : ℕ
  u : ℚ
  frame : Option (ℕ → Vec3)

/-- The body of the inner loop of `learnWorker` (lines 250–270): update the
cell for `(sampleIndex, denseIndex)`, then accumulate
`acc = motion * state.longTerm` into `recallAccumulator[sparseIndex]` and
`recallTotal`.  Note the accumulator write index is the SPARSE index, as in
the code. -/
def learnPixel (d2s : List ℕ) (sampleIndex denseIndex : ℕ) (motion : ℚ) (luma : ℕ)
    (frame : ℕ → Vec3) (st : SweepState) : SweepState :=
  let sparseIndex := d2s.getD denseIndex 0
  let pixel := frame sparseIndex
  let state := cellUpdate luma pixel (st.cells (sampleIndex * d2s.length + denseIndex))
  let acc := motion * state.longTerm
  { st with
    cells := Function.update st.cells (sampleIndex * d2s.length + denseIndex) state
    recallAccumulator := Function.update st.recallAccumulator sparseIndex
      (st.recallAccumulator sparseIndex + acc)
    recallTotal := st.recallTotal + acc }

/-- One slot of the sweep (lines 222–271): set the learn flag from the
gate; if learning and the delayed frame is available, run the inner loop
over every dense pixel (a missing frame is a bounded wait plus `continue`). -/
def learnSlot (d2s : List ℕ) (sampleIndex : ℕ) (input : SlotInput)
    (st : SweepState) : SweepState :=
  let learning := isLearning input.motion input.u
  let st := { st with learnFlags := Function.update st.learnFlags sampleIndex learning }
  if learning then
    match input.frame with
    | none => st
    | some frame =>
        (List.range d2s.length).foldl
          (fun s denseIndex =>
            learnPixel d2s sampleIndex denseIndex input.motion input.luma frame s) st
  else st

/-- The slot loop `for (sampleIndex = 0; sampleIndex != kSamples; sampleIndex++)`,
with the per-slot inputs listed in slot order starting at `sampleIndex`. -/
def runSlots (d2s : List ℕ) (sampleIndex : ℕ) (inputs : List SlotInput)
    (st : SweepState) : SweepState :=
  match inputs with
  | [] => st
  | input :: rest => runSlots d2s (sampleIndex + 1) rest (learnSlot d2s sampleIndex input st)

/-- Start-of-sweep reset (`recallTotal = 0;
std::fill(recallAccumulator.begin(), recallAccumulator.end(), 0)`). -/
def resetSweep (st : SweepState) : SweepState :=
  { st with recallTotal := 0, recallAccumulator := fun _ => 0 }

/-- The publish step (lines 277–281): `recallScale = recallTotal ?
denseSize / recallTotal : 0`, then for every dense index write
`recallAccumulator[denseIndex] * recallScale - 1.0` into
`recallBuffer[sparseIndex]`. -/
def publish (d2s : List ℕ) (st : SweepState) : SweepState :=
  let recallScale : ℚ := if st.recallTotal ≠ 0 then (d2s.length : ℚ) / st.recallTotal else 0
  { st with
    recallBuffer :=
      (List.range d2s.length).foldl
        (fun buf denseIndex =>
          Function.update buf (d2s.getD denseIndex 0)
            (st.recallAccumulator denseIndex * recallScale - 1)) st.recallBuffer }

/-- One full sweep of `learnWorker`: reset the accumulator, run every slot
in order, then publish the recall buffer. -/
def sweep (d2s : List ℕ) (inputs : List SlotInput) (st : SweepState) : SweepState :=
  publish d2s (runSlots d2s 0 inputs (resetSweep st))

/-- The arithmetic mean of `buf (d2s.getD i 0)` over all dense indices
`i < d2s.length`:  the quantity the recall-normalization invariant speaks
about. -/
def denseMean (d2s : List ℕ) (buf : ℕ → ℚ) : ℚ :=
  (((List.range d2s.length).map (fun i => buf (d2s.getD i 0))).sum) / (d2s.length : ℚ)

/-- A convenient all-zero initial state: fresh backing file (cells zeroed),
accumulator, flags and recall buffer at their defaults. -/
def initState : SweepState where
  cells := fun _ => ⟨0, 0⟩
  recallAccumulator := fun _ => 0
  recallTotal := 0
  learnFlags := fun _ => false
  recallBuffer := fun _ => 0

/-!
### Initialization (`VisualMemory::start`, lines 139–167)

`start` opens the backing file with `O_CREAT | O_RDWR`, calls
`ftruncate(fd, cells * sizeof(Cell))`, maps it with `mmap`, and on success
starts the learning thread.  `sizeof(Cell)` is 16 (two `double`s).  The
environment records the pre-existing file size and which system calls fail;
per POSIX, `mmap` reports failure by returning `MAP_FAILED` (`(void*)-1`),
never the null pointer. -/

/-- A pointer value as relevant to `start`'s mmap check: the null pointer,
POSIX's `MAP_FAILED` sentinel, or a valid mapping. -/
inductive PtrResult where
  | nullPtr
  | mapFailed
  | valid
  deriving DecidableEq, Repr

/-- `sizeof(Cell)` = 2 × `sizeof(double)` = 16 bytes. -/
def cellSizeBytes : ℕ := 16

/-- The filesystem / syscall environment `start` runs against:
the backing file's existing size (`none` when the file is absent) and
which of the three system calls fail. -/
structure StartEnv where
  existingFileSize : Option ℕ
  openFails : Bool
  truncateFails : Bool
  mmapFails : Bool

/-- The observable outcome of `start`'s file handling: the backing file's
size afterwards, whether an error was reported (`perror`), whether the
learning thread was started, and the pointer `mmap` produced (when
reached). -/
structure StartResult where
  fileSize : Option ℕ
  errorReported : Bool
  threadStarted : Bool
  mappedPtr : Option PtrResult
  deriving DecidableEq, Repr

/-- The file-handling portion of `VisualMemory::start` (lines 139–167),
step by step:
open (`O_CREAT`: an absent file is created empty); on failure report and
return.  `ftruncate` to `cells * sizeof(Cell)`; on failure report and
return — on success the file size BECOMES `cells * sizeof(Cell)`
unconditionally, whatever it was before.  `mmap`; the code's failure check
is `if (!mappedMemory)`, i.e. a test against the null pointer, while a
failing `mmap` yields `MAP_FAILED`.  If the check passes, the learning
thread is started. -/
def startFileOps (cells : ℕ) (env : StartEnv) : StartResult :=
  if env.openFails then
    { fileSize := env.existingFileSize, errorReported := true
      threadStarted := false, mappedPtr := none }
  else
    let sizeAfterOpen := env.existingFileSize.getD 0
    if env.truncateFails then
      { fileSize := some sizeAfterOpen, errorReported := true
        threadStarted := false, mappedPtr := none }
    else
      let mappedMemory : PtrResult :=
        if env.mmapFails then PtrResult.mapFailed else PtrResult.valid
      if mappedMemory = PtrResult.nullPtr then
        { fileSize := some (cells * cellSizeBytes), errorReported := true
          threadStarted := false, mappedPtr := some mappedMemory }
      else
        { fileSize := some (cells * cellSizeBytes), errorReported := false
          threadStarted := true, mappedPtr := some mappedMemory }

/-!
### IEEE-style values for the debug snapshot (`VisualMemory::debug`)

The snapshot encoder computes `cellScale = 1.0 / cellMax` with no guard;
when every `longTerm` is zero this is an IEEE division of 1.0 by +0.0.
The subsequent arithmetic therefore leaves the finite domain, so this part
is modelled over an explicit value domain with infinities and NaN.  A
single `ℚ` zero models IEEE +0.0, which is the value actually arising here
(a fresh zero-filled mapping holds +0.0 cells, and `max` over them is
+0.0). -/

/-- An IEEE-754-style double value: finite (exact rational), ±infinity, or
NaN. -/
inductive FVal where
  | fin (q : ℚ)
  | inf
  | ninf
  | nan
  deriving DecidableEq, Repr

/-- IEEE multiplication on `FVal`: `0 × ±∞ = NaN`, NaN propagates. -/
def FVal.mul : FVal → FVal → FVal
  | nan, _ => nan
  | _, nan => nan
  | fin a, fin b => fin (a * b)
  | fin a, inf => if a = 0 then nan else if 0 < a then inf else ninf
  | fin a, ninf => if a = 0 then nan else if 0 < a then ninf else inf
  | inf, fin b => if b = 0 then nan else if 0 < b then inf else ninf
  | ninf, fin b => if b = 0 then nan else if 0 < b then ninf else inf
  | inf, inf => inf
  | inf, ninf => ninf
  | ninf, inf => ninf
  | ninf, ninf => inf

/-- IEEE addition on `FVal`: `∞ + (−∞) = NaN`, NaN propagates. -/
def FVal.add : FVal → FVal → FVal
  | nan, _ => nan
  | _, nan => nan
  | fin a, fin b => fin (a + b)
  | fin _, inf => inf
  | fin _, ninf => ninf
  | inf, fin _ => inf
  | ninf, fin _ => ninf
  | inf, inf => inf
  | ninf, ninf => ninf
  | inf, ninf => nan
  | ninf, inf => nan

/-- IEEE division on `FVal`: a nonzero finite value divided by (+)0 gives
a signed infinity, `0/0 = NaN`, NaN propagates. -/
def FVal.div : FVal → FVal → FVal
  | nan, _ => nan
  | _, nan => nan
  | fin a, fin b =>
      if b = 0 then (if a = 0 then nan else if 0 < a then inf else ninf)
      else fin (a / b)
  | fin _, inf => fin 0
  | fin _, ninf => fin 0
  | inf, fin b => if 0 ≤ b then inf else ninf
  | ninf, fin b => if 0 ≤ b then ninf else inf
  | inf, inf => nan
  | inf, ninf => nan
  | ninf, inf => nan
  | ninf, ninf => nan

/-- IEEE `<` on `FVal`: every comparison involving NaN is false. -/
def FVal.flt : FVal → FVal → Bool
  | nan, _ => false
  | _, nan => false
  | fin a, fin b => decide (a < b)
  | fin _, inf => true
  | fin _, ninf => false
  | inf, fin _ => false
  | ninf, fin _ => true
  | inf, inf => false
  | ninf, ninf => false
  | ninf, inf => true
  | inf, ninf => false

/-- `std::min(a, b)` is `b < a ? b : a`; with `b = NaN` the comparison is
false and `a` is returned. -/
def stdMin (a b : FVal) : FVal :=
  if FVal.flt b a then b else a

/-- C double→int conversion truncates toward zero.  Conversion of a
non-finite value is undefined behavior in C; it is unreached on the paths
modelled here (`std::min` has already produced a finite value), and mapped
to 0. -/
def FVal.toIntTrunc : FVal → ℤ
  | fin q => if 0 ≤ q then ⌊q⌋ else ⌈q⌉
  | _ => 0

/-- `cellMax` as computed by `VisualMemory::debug` (lines 313–317): start
from `memoryBuffer[0].longTerm` and fold `std::max` with every later
cell's `longTerm`.  (The grid is nonempty whenever `debug` runs; the `[]`
case is unreached.) -/
def cellMaxOf (grid : List Cell) : ℚ :=
  match grid with
  | [] => 0
  | c :: rest => rest.foldl (fun m x => max m x.longTerm) c.longTerm

/-- `memory_t cellScale = 1.0 / cellMax;` — the unguarded normalization
divisor (line 318), over IEEE values. -/
def cellScaleOf (cellMax : ℚ) : FVal :=
  FVal.div (FVal.fin 1) (FVal.fin cellMax)

/-- One encoded 8-bit channel of the debug snapshot (lines 334–338):
`s = cellValue * cellScale`, then
`std::min<memory_t>(255.5f, s*s*s*s * 255.0f + 0.5f)` truncated to int.
(255.5f, 255.0f and 0.5f are exactly representable.) -/
def debugChannelValue (cellValue : ℚ) (cellScale : FVal) : ℤ :=
  let s := FVal.mul (FVal.fin cellValue) cellScale
  FVal.toIntTrunc (stdMin (FVal.fin (511 / 2))
    (FVal.add (FVal.mul (FVal.mul (FVal.mul (FVal.mul s s) s) s) (FVal.fin 255))
      (FVal.fin (1 / 2))))

/-!
### Helper lemmas

Generic facts about the write loops (folds of `Function.update` over
`List.range`), list indexing, and the learning gate.
-/

lemma foldl_update_eval_ne (k : ℕ → ℕ) (v : ℕ → ℚ) :
    ∀ (n : ℕ) (buf : ℕ → ℚ) (x : ℕ), (∀ i, i < n → k i ≠ x) →
      ((List.range n).foldl (fun b i => Function.update b (k i) (v i)) buf) x = buf x := by
  intro n
  induction n with
  | zero => intro buf x _; simp
  | succ m ih =>
      intro buf x h
      rw [List.range_succ, List.foldl_append, List.foldl_cons, List.foldl_nil]
      rw [Function.update_noteq (fun e => h m (Nat.lt_succ_self m) e.symm)]
      exact ih buf x (fun i hi => h i (Nat.lt_succ_of_lt hi))

lemma foldl_update_eval_last (k : ℕ → ℕ) (v : ℕ → ℚ) :
    ∀ (n : ℕ) (buf : ℕ → ℚ) (j : ℕ), j < n → (∀ i, j < i → i < n → k i ≠ k j) →
      ((List.range n).foldl (fun b i => Function.update b (k i) (v i)) buf) (k j) = v j := by
  intro n
  induction n with
  | zero => intro buf j hj; omega
  | succ m ih =>
      intro buf j hj h
      rw [List.range_succ, List.foldl_append, List.foldl_cons, List.foldl_nil]
      by_cases hjm : j = m
      · subst hjm; exact Function.update_same _ _ _
      · have hjm' : j < m := by omega
        rw [Function.update_noteq (Ne.symm (h m hjm' (Nat.lt_succ_self m)))]
        exact ih buf j hjm' (fun i h1 h2 => h i h1 (Nat.lt_succ_of_lt h2))

lemma foldl_update_eval_const (k : ℕ → ℕ) (c : ℚ) :
    ∀ (n : ℕ) (buf : ℕ → ℚ) (x : ℕ), (∃ i, i < n ∧ k i = x) →
      ((List.range n).foldl (fun b i => Function.update b (k i) c) buf) x = c := by
  intro n
  induction n with
  | zero => rintro buf x ⟨i, hi, _⟩; omega
  | succ m ih =>
      rintro buf x ⟨i, hi, hk⟩
      rw [List.range_succ, List.foldl_append, List.foldl_cons, List.foldl_nil]
      by_cases hm : k m = x
      · rw [← hm]; exact Function.update_same _ _ _
      · have him : i < m := by
          rcases Nat.lt_succ_iff_lt_or_eq.mp hi with h | h
          · exact h
          · exact absurd (h ▸ hk) hm
        rw [Function.update_noteq (fun e => hm (e.symm))]
        exact ih buf x ⟨i, him, hk⟩

lemma sum_map_range (f : ℕ → ℚ) :
    ∀ n : ℕ, ((List.range n).map f).sum = ∑ i ∈ Finset.range n, f i := by
  intro n
  induction n with
  | zero => simp
  | succ m ih =>
      rw [List.range_succ, List.map_append, List.sum_append, Finset.sum_range_succ, ih]
      simp

lemma mem_iff_getD (l : List ℕ) (x : ℕ) :
    x ∈ l ↔ ∃ i, i < l.length ∧ l.getD i 0 = x := by
  rw [List.mem_iff_getElem]
  constructor
  · rintro ⟨i, h, rfl⟩
    exact ⟨i, h, List.getD_eq_getElem l 0 h⟩
  · rintro ⟨i, h, e⟩
    exact ⟨i, h, by rw [← List.getD_eq_getElem l 0 h, e]⟩

lemma isLearning_of_motion_ge (motion u : ℚ) (hm : kMotionThreshold ≤ motion)
    (h0 : 0 ≤ u) (h1 : u < 1) : isLearning motion u = true := by
  simp only [isLearning, ge_iff_le, decide_eq_true_eq]
  rw [kMotionThreshold] at hm ⊢
  have hthr : (1 : ℚ) ≤ motion / 100 := by
    rw [le_div_iff₀ (by norm_num : (0 : ℚ) < 100)]
    linarith
  nlinarith

lemma isLearning_zero_motion (u : ℚ) (hu : 0 < u) : isLearning 0 u = false := by
  simp only [isLearning, ge_iff_le, decide_eq_false_iff_not, not_le]
  rw [kMotionThreshold, zero_div]
  exact mul_pos hu hu

lemma publish_recallBuffer_of_total_zero (d2s : List ℕ) (st : SweepState)
    (h : st.recallTotal = 0) (j : ℕ) (hj : j ∈ d2s) :
    (publish d2s st).recallBuffer j = -1 := by
  obtain ⟨i, hi, hk⟩ := (mem_iff_getD d2s j).mp hj
  simp only [publish, h, ne_eq, not_true_eq_false, if_false, mul_zero, zero_sub]
  exact foldl_update_eval_const (fun i => d2s.getD i 0) (-1) d2s.length st.recallBuffer j
    ⟨i, hi, hk⟩

lemma publish_recallBuffer_not_mem (d2s : List ℕ) (st : SweepState) (j : ℕ)
    (hj : j ∉ d2s) :
    (publish d2s st).recallBuffer j = st.recallBuffer j := by
  simp only [publish]
  exact foldl_update_eval_ne (fun i => d2s.getD i 0) _ d2s.length st.recallBuffer j
    (fun i hi e => hj ((mem_iff_getD d2s j).mpr ⟨i, hi, e⟩))

lemma publish_learnFlags (d2s : List ℕ) (st : SweepState) :
    (publish d2s st).learnFlags = st.learnFlags := rfl

lemma learnSlot_noLearn (d2s : List ℕ) (k : ℕ) (input : SlotInput) (st : SweepState)
    (h : isLearning input.motion input.u = false) :
    learnSlot d2s k input st =
      { st with learnFlags := Function.update st.learnFlags k false } := by
  simp [learnSlot, h]

lemma runSlots_noLearn (d2s : List ℕ) (inputs : List SlotInput) :
    ∀ (k : ℕ) (st : SweepState),
      (∀ inp ∈ inputs, isLearning inp.motion inp.u = false) →
      (runSlots d2s k inputs st).recallTotal = st.recallTotal ∧
      (runSlots d2s k inputs st).recallAccumulator = st.recallAccumulator ∧
      (runSlots d2s k inputs st).recallBuffer = st.recallBuffer ∧
      ∀ i, (runSlots d2s k inputs st).learnFlags i = st.learnFlags i ∨
        (runSlots d2s k inputs st).learnFlags i = false := by
  induction inputs with
  | nil => intro k st _; exact ⟨rfl, rfl, rfl, fun i => Or.inl rfl⟩
  | cons input rest ih =>
      intro k st h
      rw [runSlots, learnSlot_noLearn d2s k input st (h input (List.mem_cons_self _ _))]
      obtain ⟨h1, h2, h3, h4⟩ :=
        ih (k + 1) { st with learnFlags := Function.update st.learnFlags k false }
          (fun inp hin => h inp (List.mem_cons_of_mem _ hin))
      refine ⟨h1, h2, h3, fun i => ?_⟩
      rcases h4 i with h5 | h5
      · by_cases hik : i = k
        · subst hik
          exact Or.inr (h5.trans (Function.update_same i false st.learnFlags))
        · exact Or.inl (h5.trans (Function.update_noteq hik false st.learnFlags))
      · exact Or.inr h5

/-!
### Claim theorems
-/

/-- Claim C9: for every sample slot whose motion value `m` satisfies
`m ≥ motionThreshold`, the gating condition `(motion / motionThreshold) ≥ u²`
is true for every draw of `u ∈ [0,1)`, so the slot's learn flag is
deterministically set. -/
theorem C9_threshold_motion_always_learns (motion u : ℚ)
    (hm : motion ≥ kMotionThreshold) (h0 : 0 ≤ u) (h1 : u < 1) :
    isLearning motion u = true :=
  isLearning_of_motion_ge motion u hm h0 h1

/-- Witness for C9 at `motion = 150`, `u = 1/2`. -/
theorem C9_threshold_motion_always_learns_witness :
    isLearning 150 (1 / 2) = true :=
  C9_threshold_motion_always_learns 150 (1 / 2)
    (by rw [kMotionThreshold]; norm_num) (by norm_num) (by norm_num)

/-- Claim C10: a sweep whose slot phase ends with `recallTotal = 0` uses
the fallback `recallScale = 0` and writes exactly `-1` into the recall
buffer at the sparse index of every dense pixel (and there is no division:
the `recallTotal ≠ 0` branch is not taken). -/
theorem C10_zero_total_publishes_minus_one (d2s : List ℕ) (inputs : List SlotInput)
    (st : SweepState)
    (h : (runSlots d2s 0 inputs (resetSweep st)).recallTotal = 0) :
    ∀ j ∈ d2s, (sweep d2s inputs st).recallBuffer j = -1 := by
  intro j hj
  exact publish_recallBuffer_of_total_zero d2s _ h j hj

/-- Witness for C10: an empty slot list leaves `recallTotal = 0`, and the
published buffer holds `-1` at the only mapped pixel. -/
theorem C10_zero_total_publishes_minus_one_witness :
    (sweep [0] ([] : List SlotInput) initState).recallBuffer 0 = -1 :=
  C10_zero_total_publishes_minus_one [0] [] initState rfl 0 (by simp)

/-- Claim C3 is false as stated, in both conjuncts, at concrete inputs:
with motion 0 the gate still fires at the draw `u = 0` (since `0 ≥ 0²`),
and a no-learning sweep does NOT leave the recall buffer unchanged — the
publish step overwrites every mapped pixel with `-1` (here: the single
mapped pixel's recall moves from its default `0` to `-1`). -/
theorem C3_counterexample :
    isLearning 0 0 = true ∧
    (sweep (buildDenseToSparse [true])
        [{ motion := 0, luma := 0, u := 1 / 2, frame := some (fun _ => ⟨0, 0, 0⟩) }]
        initState).recallBuffer 0 = -1 ∧
    initState.recallBuffer 0 = 0 := by
  refine ⟨by with_unfolding_all rfl, by with_unfolding_all rfl, rfl⟩

/-- Claim C3 as amended: for a sweep in which every slot's motion is 0 and
every drawn `u` is nonzero, no learn flag is set; the recall buffer is
nevertheless rewritten by the publish step: every mapped pixel's entry
becomes `-1` (the `recallTotal = 0` fallback), and only unmapped entries
are unchanged. -/
theorem C3_amended_no_motion_sweep (d2s : List ℕ) (inputs : List SlotInput)
    (st : SweepState)
    (hmot : ∀ inp ∈ inputs, inp.motion = 0)
    (hu : ∀ inp ∈ inputs, 0 < inp.u)
    (hflags : ∀ i, st.learnFlags i = false) :
    (∀ i, (sweep d2s inputs st).learnFlags i = false) ∧
    (∀ j ∈ d2s, (sweep d2s inputs st).recallBuffer j = -1) ∧
    (∀ j, j ∉ d2s → (sweep d2s inputs st).recallBuffer j = st.recallBuffer j) := by
  have hnl : ∀ inp ∈ inputs, isLearning inp.motion inp.u = false := fun inp hin => by
    rw [hmot inp hin]
    exact isLearning_zero_motion inp.u (hu inp hin)
  obtain ⟨h1, h2, h3, h4⟩ := runSlots_noLearn d2s inputs 0 (resetSweep st) hnl
  have htot : (runSlots d2s 0 inputs (resetSweep st)).recallTotal = 0 := by
    rw [h1]; rfl
  refine ⟨fun i => ?_, fun j hj => ?_, fun j hj => ?_⟩
  · show (runSlots d2s 0 inputs (resetSweep st)).learnFlags i = false
    rcases h4 i with h5 | h5
    · exact h5.trans (hflags i)
    · exact h5
  · exact publish_recallBuffer_of_total_zero d2s _ htot j hj
  · exact (publish_recallBuffer_not_mem d2s _ j hj).trans (by rw [h3]; rfl)

/-- Witness for the amended C3: one mapped pixel, one zero-motion slot with
draw `u = 1/2`: the learn flag stays false and the mapped pixel's recall
becomes `-1`. -/
theorem C3_amended_no_motion_sweep_witness :
    (sweep [0] [{ motion := 0, luma := 0, u := 1 / 2, frame := some (fun _ => ⟨0, 0, 0⟩) }]
      initState).learnFlags 0 = false ∧
    (sweep [0] [{ motion := 0, luma := 0, u := 1 / 2, frame := some (fun _ => ⟨0, 0, 0⟩) }]
      initState).recallBuffer 0 = -1 :=
  ⟨(C3_amended_no_motion_sweep [0] _ initState (by simp) (by simp) (fun _ => rfl)).1 0,
   (C3_amended_no_motion_sweep [0] _ initState (by simp) (by simp) (fun _ => rfl)).2.1 0
     (by simp)⟩

lemma longTermStep_sub (s L : ℚ) :
    s - longTermStep s L = (s - L) * (1 - (s - L) * (s - L) * kLongTermPermeability) := by
  rw [longTermStep]
  ring

lemma longTermStep_contract (s L : ℚ)
    (h : (s - L) * (s - L) * kLongTermPermeability ≤ 2) :
    |s - longTermStep s L| ≤ |s - L| ∧
    (s - longTermStep s L) * (s - longTermStep s L) * kLongTermPermeability ≤ 2 := by
  have hp : (0 : ℚ) ≤ (s - L) * (s - L) * kLongTermPermeability := by
    rw [kLongTermPermeability]
    nlinarith [mul_self_nonneg (s - L)]
  have habs : |1 - (s - L) * (s - L) * kLongTermPermeability| ≤ 1 :=
    abs_le.mpr ⟨by linarith, by linarith⟩
  have hsq : (1 - (s - L) * (s - L) * kLongTermPermeability) *
      (1 - (s - L) * (s - L) * kLongTermPermeability) ≤ 1 := by
    have h1 := abs_le.mp habs
    nlinarith [h1.1, h1.2]
  constructor
  · rw [longTermStep_sub, abs_mul]
    exact mul_le_of_le_one_right (abs_nonneg _) habs
  · rw [longTermStep_sub]
    have e1 : (s - L) * (1 - (s - L) * (s - L) * kLongTermPermeability) *
        ((s - L) * (1 - (s - L) * (s - L) * kLongTermPermeability)) * kLongTermPermeability
        = ((s - L) * (s - L) * kLongTermPermeability) *
          ((1 - (s - L) * (s - L) * kLongTermPermeability) *
            (1 - (s - L) * (s - L) * kLongTermPermeability)) := by
      ring
    rw [e1]
    nlinarith [hp, hsq, h]

lemma shortTermStep_closed (x s : ℚ) :
    ∀ n : ℕ, (shortTermStep x)^[n] s
      = x / kShortTermPermeability
        + (1 - kShortTermPermeability) ^ n * (s - x / kShortTermPermeability) := by
  intro n
  induction n with
  | zero => simp
  | succ m ih =>
      rw [Function.iterate_succ_apply', ih, shortTermStep, kShortTermPermeability, pow_succ]
      ring

/-- Claim C7 is false as stated: for the initial pair `shortTerm = 0`,
`longTerm = 200` the very first long-term update overshoots
(`longTerm` jumps to `-600`), so the gap magnitude grows from 200 to 600. -/
theorem C7_counterexample :
    ¬ (|(0 : ℚ) - (longTermStep 0)^[0 + 1] 200| ≤ |(0 : ℚ) - (longTermStep 0)^[0] 200|) := by
  have h1 : (longTermStep 0)^[0 + 1] (200 : ℚ) = -600 := by
    rw [zero_add, Function.iterate_one, longTermStep, kLongTermPermeability]
    norm_num
  rw [h1, Function.iterate_zero_apply]
  rw [show (0 : ℚ) - -600 = 600 by norm_num, show (0 : ℚ) - 200 = -200 by norm_num]
  rw [abs_of_nonneg (by norm_num : (0 : ℚ) ≤ 600), abs_neg,
    abs_of_nonneg (by norm_num : (0 : ℚ) ≤ 200)]
  norm_num

/-- Claim C7 as amended: under repeated applications of the long-term
update with fixed `shortTerm = s`, the gap magnitude `|s − longTerm|` is
non-increasing at every step, provided the initial gap satisfies
`(s − longTerm)² × pLong ≤ 2` (i.e. `|s − longTerm| ≤ √20000 ≈ 141.4`);
outside that region the cubic update overshoots. -/
theorem C7_amended_gap_nonincreasing (s L : ℚ)
    (h : (s - L) * (s - L) * kLongTermPermeability ≤ 2) :
    ∀ n : ℕ, |s - (longTermStep s)^[n + 1] L| ≤ |s - (longTermStep s)^[n] L| := by
  have inv : ∀ n : ℕ,
      (s - (longTermStep s)^[n] L) * (s - (longTermStep s)^[n] L) * kLongTermPermeability ≤ 2 := by
    intro n
    induction n with
    | zero => simpa using h
    | succ m ih =>
        rw [Function.iterate_succ_apply']
        exact (longTermStep_contract s _ ih).2
  intro n
  rw [Function.iterate_succ_apply']
  exact (longTermStep_contract s _ (inv n)).1

/-- Witness for the amended C7 at `s = 0`, `L = 1`, first step. -/
theorem C7_amended_gap_nonincreasing_witness :
    |(0 : ℚ) - (longTermStep 0)^[0 + 1] 1| ≤ |(0 : ℚ) - (longTermStep 0)^[0] 1| :=
  C7_amended_gap_nonincreasing 0 1 (by rw [kLongTermPermeability]; norm_num) 0

/-- Claim C8: `x / pShort` is a fixed point of the short-term update under
constant reinforcement `x`; each update shrinks the distance to the fixed
point by the factor `1 − pShort` (so iteration converges to it); and
concretely, 1000 updates from 0 with `x = 1/2`, `pShort = 1/10` land
within 1% of 5. -/
theorem C8_shortterm_fixed_point_and_convergence :
    (∀ x s : ℚ, s = x / kShortTermPermeability → shortTermStep x s = s) ∧
    (∀ x s : ℚ, |shortTermStep x s - x / kShortTermPermeability|
        = (1 - kShortTermPermeability) * |s - x / kShortTermPermeability|) ∧
    |(shortTermStep (1 / 2))^[1000] 0 - 5| ≤ 5 / 100 := by
  refine ⟨?_, ?_, ?_⟩
  · intro x s hs
    rw [hs, shortTermStep, kShortTermPermeability]
    ring
  · intro x s
    have e1 : shortTermStep x s - x / kShortTermPermeability
        = (1 - kShortTermPermeability) * (s - x / kShortTermPermeability) := by
      rw [shortTermStep, kShortTermPermeability]
      ring
    rw [e1, abs_mul,
      abs_of_nonneg (by rw [kShortTermPermeability]; norm_num : (0 : ℚ) ≤ 1 - kShortTermPermeability)]
  · have hpow : ((9 : ℚ) / 10) ^ 1000 ≤ 1 / 100 := by
      rw [div_pow, div_le_div_iff₀ (by positivity) (by norm_num)]
      norm_num
    rw [shortTermStep_closed (1 / 2) 0 1000, kShortTermPermeability]
    have e1 : (1 : ℚ) / 2 / (1 / 10) + (1 - 1 / 10) ^ 1000 * (0 - 1 / 2 / (1 / 10)) - 5
        = -(5 * (9 / 10) ^ 1000) := by
      ring
    rw [e1, abs_neg, abs_of_nonneg (by positivity : (0 : ℚ) ≤ 5 * ((9 : ℚ) / 10) ^ 1000)]
    linarith [hpow]

/-- Witness for C8 at `x = 1`, `s = 10 = x / pShort`. -/
theorem C8_shortterm_fixed_point_and_convergence_witness :
    shortTermStep 1 10 = 10 :=
  C8_shortterm_fixed_point_and_convergence.1 1 10 (by rw [kShortTermPermeability]; norm_num)

/-- The relation the publish step's normalization relies on:
`recallTotal` equals the sum of the accumulator over the dense index range.
The slot loop maintains it exactly when every accumulator write index stays
below `denseSize`. -/
def recallInvariant (n : ℕ) (st : SweepState) : Prop :=
  st.recallTotal = ∑ i ∈ Finset.range n, st.recallAccumulator i

lemma learnPixel_invariant (d2s : List ℕ) (sampleIndex denseIndex : ℕ) (motion : ℚ)
    (luma : ℕ) (frame : ℕ → Vec3) (st : SweepState)
    (hb : ∀ j ∈ d2s, j < d2s.length) (hd : denseIndex < d2s.length)
    (h : recallInvariant d2s.length st) :
    recallInvariant d2s.length (learnPixel d2s sampleIndex denseIndex motion luma frame st) := by
  have hmem : d2s.getD denseIndex 0 ∈ d2s := by
    rw [List.getD_eq_getElem d2s 0 hd]
    exact List.getElem_mem hd
  have hlt : d2s.getD denseIndex 0 < d2s.length := hb _ hmem
  have hmem' : d2s.getD denseIndex 0 ∈ Finset.range d2s.length := Finset.mem_range.mpr hlt
  unfold recallInvariant at h
  show st.recallTotal + _ = ∑ i ∈ Finset.range d2s.length, Function.update st.recallAccumulator
    (d2s.getD denseIndex 0) (st.recallAccumulator (d2s.getD denseIndex 0) + _) i
  rw [Finset.sum_update_of_mem hmem', Finset.sdiff_singleton_eq_erase, h,
    ← Finset.add_sum_erase _ _ hmem']
  ring

lemma foldl_learnPixel_invariant (d2s : List ℕ) (sampleIndex : ℕ) (motion : ℚ)
    (luma : ℕ) (frame : ℕ → Vec3) (hb : ∀ j ∈ d2s, j < d2s.length) :
    ∀ (l : List ℕ) (st : SweepState), (∀ d ∈ l, d < d2s.length) →
      recallInvariant d2s.length st →
      recallInvariant d2s.length
        (l.foldl (fun s d => learnPixel d2s sampleIndex d motion luma frame s) st) := by
  intro l
  induction l with
  | nil => intro st _ h; exact h
  | cons d rest ih =>
      intro st hl h
      rw [List.foldl_cons]
      exact ih _ (fun x hx => hl x (List.mem_cons_of_mem _ hx))
        (learnPixel_invariant d2s sampleIndex d motion luma frame st hb
          (hl d (List.mem_cons_self _ _)) h)

lemma learnSlot_invariant (d2s : List ℕ) (sampleIndex : ℕ) (input : SlotInput)
    (st : SweepState) (hb : ∀ j ∈ d2s, j < d2s.length)
    (h : recallInvariant d2s.length st) :
    recallInvariant d2s.length (learnSlot d2s sampleIndex input st) := by
  rcases input with ⟨motion, luma, u, fr⟩
  cases hL : isLearning motion u with
  | false =>
      simp only [learnSlot, hL, Bool.false_eq_true, if_false]
      exact h
  | true =>
      cases fr with
      | none =>
          simp only [learnSlot, hL, if_true]
          exact h
      | some frame =>
          simp only [learnSlot, hL, if_true]
          exact foldl_learnPixel_invariant d2s sampleIndex motion luma frame hb
            (List.range d2s.length) _ (fun d hd => List.mem_range.mp hd) h

lemma runSlots_invariant (d2s : List ℕ) (inputs : List SlotInput)
    (hb : ∀ j ∈ d2s, j < d2s.length) :
    ∀ (k : ℕ) (st : SweepState), recallInvariant d2s.length st →
      recallInvariant d2s.length (runSlots d2s k inputs st) := by
  induction inputs with
  | nil => intro k st h; exact h
  | cons input rest ih =>
      intro k st h
      rw [runSlots]
      exact ih (k + 1) _ (learnSlot_invariant d2s k input st hb h)

lemma publish_recallBuffer_getD (d2s : List ℕ) (st : SweepState) (hnd : d2s.Nodup)
    (i : ℕ) (hi : i < d2s.length) :
    (publish d2s st).recallBuffer (d2s.getD i 0)
      = st.recallAccumulator i *
          (if st.recallTotal ≠ 0 then (d2s.length : ℚ) / st.recallTotal else 0) - 1 := by
  simp only [publish]
  exact foldl_update_eval_last (fun i => d2s.getD i 0)
    (fun i => st.recallAccumulator i *
      (if st.recallTotal ≠ 0 then (d2s.length : ℚ) / st.recallTotal else 0) - 1)
    d2s.length st.recallBuffer i hi
    (fun i' h1 h2 e => by
      simp only [] at e
      rw [List.getD_eq_getElem d2s 0 h2, List.getD_eq_getElem d2s 0 hi] at e
      have := (List.Nodup.getElem_inj_iff hnd).mp e
      omega)

/-- Claim C1 is false as stated: with the pixel mapping `[unmapped, mapped]`
(`denseToSparse = [1]`) and one learning slot, the sweep ends with
`recallTotal = 1/100 ≠ 0`, yet the mean of the recall buffer over the dense
pixels is `-1`, not 0: the accumulation step wrote at the SPARSE index 1
while the publish step reads the accumulator at the DENSE index 0. -/
theorem C1_counterexample :
    (runSlots (buildDenseToSparse [false, true]) 0
        [{ motion := 100, luma := 255, u := 1 / 2, frame := some (fun _ => ⟨1, 1, 1⟩) }]
        (resetSweep initState)).recallTotal ≠ 0 ∧
    denseMean (buildDenseToSparse [false, true])
        (sweep (buildDenseToSparse [false, true])
          [{ motion := 100, luma := 255, u := 1 / 2, frame := some (fun _ => ⟨1, 1, 1⟩) }]
          initState).recallBuffer = -1 := by
  constructor
  · have e : (runSlots (buildDenseToSparse [false, true]) 0
        [{ motion := 100, luma := 255, u := 1 / 2, frame := some (fun _ => ⟨1, 1, 1⟩) }]
        (resetSweep initState)).recallTotal = 1 / 100 := by
      with_unfolding_all rfl
    rw [e]
    norm_num
  · with_unfolding_all rfl

/-- Claim C1 as amended: restricted to pixel mappings in which every mapped
pixel's sparse index lies below `denseSize` (as holds e.g. when every pixel
is mapped, so that sparse = dense), the published recall buffer does have
mean 0 over the dense pixels whenever the sweep's `recallTotal` is nonzero. -/
theorem C1_amended_mean_zero (d2s : List ℕ) (inputs : List SlotInput) (st : SweepState)
    (hnd : d2s.Nodup) (hb : ∀ j ∈ d2s, j < d2s.length)
    (hT : (runSlots d2s 0 inputs (resetSweep st)).recallTotal ≠ 0) :
    denseMean d2s (sweep d2s inputs st).recallBuffer = 0 := by
  have hinv : recallInvariant d2s.length (runSlots d2s 0 inputs (resetSweep st)) :=
    runSlots_invariant d2s inputs hb 0 (resetSweep st) (by simp [recallInvariant, resetSweep])
  unfold denseMean
  rw [sum_map_range]
  have hcongr : ∀ i ∈ Finset.range d2s.length,
      (sweep d2s inputs st).recallBuffer (d2s.getD i 0)
        = (runSlots d2s 0 inputs (resetSweep st)).recallAccumulator i *
            ((d2s.length : ℚ) / (runSlots d2s 0 inputs (resetSweep st)).recallTotal) - 1 := by
    intro i hi
    have h1 := publish_recallBuffer_getD d2s (runSlots d2s 0 inputs (resetSweep st)) hnd i
      (Finset.mem_range.mp hi)
    rw [if_pos hT] at h1
    exact h1
  rw [Finset.sum_congr rfl hcongr, Finset.sum_sub_distrib, ← Finset.sum_mul, ← hinv,
    Finset.sum_const, Finset.card_range, nsmul_eq_mul, mul_one, mul_comm,
    div_mul_cancel₀ _ hT, sub_self, zero_div]

/-- Witness for the amended C1: mapping `[0, 1]` (all pixels mapped), one
learning slot; `recallTotal = 1/50 ≠ 0` and the published mean is 0. -/
theorem C1_amended_mean_zero_witness :
    denseMean [0, 1]
      (sweep [0, 1]
        [{ motion := 100, luma := 255, u := 1 / 2, frame := some (fun _ => ⟨1, 1, 1⟩) }]
        initState).recallBuffer = 0 :=
  C1_amended_mean_zero [0, 1]
    [{ motion := 100, luma := 255, u := 1 / 2, frame := some (fun _ => ⟨1, 1, 1⟩) }]
    initState (by decide) (by decide)
    (by
      have e : (runSlots [0, 1] 0
          [{ motion := 100, luma := 255, u := 1 / 2, frame := some (fun _ => ⟨1, 1, 1⟩) }]
          (resetSweep initState)).recallTotal = 1 / 50 := by
        with_unfolding_all rfl
      rw [e]
      norm_num)

/-- Claim C2 fails on the code (the accumulator write is out of bounds for
mappings with an unmapped pixel before a mapped one): with the pixel
mapping `[unmapped, mapped]`, `denseToSparse = [1]` and `denseSize = 1`,
yet the inner loop's accumulation for dense index 0 writes
`recallAccumulator` at the sparse index 1 (value `1/100` here), which is
NOT below `denseSize` — in the C++ `std::vector` of length `denseSize`
this write is out of bounds. -/
theorem C2_accumulator_write_out_of_bounds :
    (buildDenseToSparse [false, true]).length = 1 ∧
    (buildDenseToSparse [false, true]).getD 0 0 = 1 ∧
    ¬ ((buildDenseToSparse [false, true]).getD 0 0 < (buildDenseToSparse [false, true]).length) ∧
    (learnPixel (buildDenseToSparse [false, true]) 0 0 100 255 (fun _ => ⟨1, 1, 1⟩)
      initState).recallAccumulator 1 = 1 / 100 ∧
    initState.recallAccumulator 1 = 0 := by
  refine ⟨rfl, rfl, by decide, ?_, rfl⟩
  with_unfolding_all rfl

/-- Claim C4 is false as stated: initializing over an existing backing
file of size 8 ≠ `1 * sizeof(Cell)` = 16 reports no error, starts the
learning thread, and mutates the file (it is resized to 16 bytes). -/
theorem C4_counterexample :
    (8 : ℕ) ≠ 1 * cellSizeBytes ∧
    (startFileOps 1 (StartEnv.mk (some 8) false false false)).errorReported = false ∧
    (startFileOps 1 (StartEnv.mk (some 8) false false false)).threadStarted = true ∧
    (startFileOps 1 (StartEnv.mk (some 8) false false false)).fileSize = some 16 := by
  refine ⟨by decide, rfl, rfl, rfl⟩

/-- Claim C4 as amended: initialization performs no size check at all —
whenever the open, resize and map calls succeed, the backing file is
unconditionally resized to `cellCount * sizeof(Cell)` and the engine is
started with no error; a mismatched pre-existing size is silently resized
over, not rejected. -/
theorem C4_amended_mismatch_silently_resized (cells : ℕ) (env : StartEnv)
    (ho : env.openFails = false) (ht : env.truncateFails = false)
    (hm : env.mmapFails = false) :
    (startFileOps cells env).errorReported = false ∧
    (startFileOps cells env).threadStarted = true ∧
    (startFileOps cells env).fileSize = some (cells * cellSizeBytes) := by
  simp [startFileOps, ho, ht, hm]

/-- Witness for the amended C4: an existing 8-byte file with `cells = 1`. -/
theorem C4_amended_mismatch_silently_resized_witness :
    (startFileOps 1 (StartEnv.mk (some 8) false false false)).threadStarted = true :=
  (C4_amended_mismatch_silently_resized 1
    (StartEnv.mk (some 8) false false false) rfl rfl rfl).2.1

/-- Claim C5 fails for the mapping failure: open and resize failures are
each reported and leave the thread unstarted, but a failing `mmap` returns
`MAP_FAILED` (per POSIX), which the code's `if (!mappedMemory)` null-test
misses — no error is reported and the learning thread IS started on the
invalid mapping. -/
theorem C5_mmap_failure_not_detected :
    (startFileOps 1 (StartEnv.mk none true false false)).errorReported = true ∧
    (startFileOps 1 (StartEnv.mk none true false false)).threadStarted = false ∧
    (startFileOps 1 (StartEnv.mk none false true false)).errorReported = true ∧
    (startFileOps 1 (StartEnv.mk none false true false)).threadStarted = false ∧
    (startFileOps 1 (StartEnv.mk none false false true)).errorReported = false ∧
    (startFileOps 1 (StartEnv.mk none false false true)).threadStarted = true ∧
    (startFileOps 1 (StartEnv.mk none false false true)).mappedPtr = some PtrResult.mapFailed := by
  decide

/-- Claim C6 fails on the code: on an all-zero grid `cellMax = 0`, and the
unguarded `cellScale = 1.0 / cellMax` (line 318) is IEEE `+∞`;
`s = 0 × ∞ = NaN` flows into `std::min(255.5, NaN)`, which returns `255.5`
(the comparison with NaN is false), so the encoded 8-bit channel is 255 —
not the required defined all-zero image. -/
theorem C6_cellmax_zero_encodes_255 :
    cellMaxOf (List.replicate 4 ⟨0, 0⟩) = 0 ∧
    cellScaleOf 0 = FVal.inf ∧
    FVal.mul (FVal.fin 0) (cellScaleOf 0) = FVal.nan ∧
    debugChannelValue 0 (cellScaleOf 0) = 255 ∧
    debugChannelValue 0 (cellScaleOf 0) ≠ 0 := by
  refine ⟨by with_unfolding_all rfl, by with_unfolding_all rfl, by with_unfolding_all rfl,
    by with_unfolding_all rfl, by with_unfolding_all decide⟩

end VisualMemory
